import Mathlib

/-!
Shallow embedding of `scripts/update.py` (free-proxy-list updater):
the probe functions (`_check_via_proxy`, `check_forward_proxy`, `check_socks`),
the validators (`validate_forward`, `validate_socks`), the candidate parser
(`parse_candidates` with `PROXY_RE`), the ranking/fallback/union logic of
`main`, and a counting-semaphore transition system modelling
`asyncio.Semaphore`-bounded concurrency.

Modelling conventions:
* elapsed milliseconds (`time.perf_counter` differences) are rationals;
* an HTTP request (`session.get`) is modelled by its observable result:
  `none` when the request raises, otherwise the response status together
  with whether `resp.read()` completes without raising;
* Python's stable `list.sort(key=...)` (timsort, a stable merge sort) is
  modelled by `List.mergeSort` on the sort key, which is likewise a stable
  merge sort;
* the order in which the concurrent `run_one` tasks append successful
  outcomes to the shared ok lists is the probe-completion order, which the
  scheduler chooses; the validators are therefore applied to the
  probe-environment list given in that append order, an arbitrary
  permutation of the (lexically sorted) candidate list, and order-sensitive
  results quantify over this permutation.
-/

namespace ProxyUpdate

/-- Elapsed milliseconds, as measured by `time.perf_counter()` differences. -/
abbrev Ms := ℚ

/-- Observable part of an HTTP response in the probe code: the status code,
and whether `await resp.read()` completes without raising. -/
structure HttpResponse where
  status : ℕ
  readOk : Bool
deriving DecidableEq, Repr

/-- Result of issuing `session.get(...)`: `none` when the request itself
raises (connection failure, timeout, TLS/protocol failure), otherwise the
response. -/
abbrev NetResult := Option HttpResponse

/-- Embedding of `_check_via_proxy` (update.py lines 119-129): returns
`some false` when `resp.status >= 400`, `some true` when the status is good
and the body is fully read, and `none` when the request or the body read
raises (the exception propagates to the caller). -/
def check_via_proxy : NetResult → Option Bool
  | none => none
  | some r => if 400 ≤ r.status then some false else if r.readOk then some true else none

/-- Per-candidate environment for `check_forward_proxy`: the candidate's
`host:port` string, the network result of the attempt against
`TEST_URL_HTTP` with the elapsed time read from the timer started at line
142 (immediately before that request), and likewise for `TEST_URL_HTTPS`
with the timer started at line 150. -/
structure ForwardProbeEnv where
  hostport : String
  httpNet : NetResult
  httpMs : Ms
  httpsNet : NetResult
  httpsMs : Ms
deriving DecidableEq, Repr

/-- One attempt inside `check_forward_proxy`: the `try`/`except Exception:
pass` block records the elapsed time iff `_check_via_proxy` returned `True`;
an exception (`none`) is absorbed and records nothing. -/
def forwardAttempt (net : NetResult) (t : Ms) : Option Ms :=
  match check_via_proxy net with
  | some true => some t
  | _ => none

/-- Embedding of `check_forward_proxy` (update.py lines 132-158): returns
`(http_ms, https_ms)`, either of which can be `none` when that protocol
test fails. -/
def check_forward_proxy (e : ForwardProbeEnv) : Option Ms × Option Ms :=
  (forwardAttempt e.httpNet e.httpMs, forwardAttempt e.httpsNet e.httpsMs)

/-- Number of `aiohttp.ClientSession` (and `TCPConnector`) instances created
by one `check_forward_proxy` call: a single session is created at update.py
line 138 and shared by both the HTTP attempt and the HTTPS attempt. A
design with independent per-attempt connections/sessions would create two. -/
def forwardSessionsPerProbe : ℕ := 1

/-- Per-candidate environment for `check_socks`: the candidate's
`host:port` string, the network results of the attempts against
`TEST_URL_HTTPS` (tried first) and `TEST_URL_HTTP` (tried second), and the
cumulative elapsed readings of the single shared timer started at line 165
(before the first attempt) at the completion of each attempt. -/
structure SocksProbeEnv where
  hostport : String
  httpsNet : NetResult
  httpsMs : Ms
  httpNet : NetResult
  httpMs : Ms
deriving DecidableEq, Repr

/-- One attempt of the `check_socks` loop body succeeds iff the request did
not raise, the status is `< 400` (otherwise `continue`), and the body read
did not raise (an exception hits `except Exception: continue`). -/
def socksAttemptOk : NetResult → Bool
  | none => false
  | some r => decide (r.status < 400) && r.readOk

/-- Embedding of `check_socks` (update.py lines 161-175). The first
component is the returned value (`some` cumulative elapsed ms, or `none`
when the loop falls through); the second component counts how many of the
two endpoint attempts were issued, capturing the short-circuit `return`
inside the `for url in (TEST_URL_HTTPS, TEST_URL_HTTP)` loop. -/
def check_socks (e : SocksProbeEnv) : Option Ms × ℕ :=
  if socksAttemptOk e.httpsNet then (some e.httpsMs, 1)
  else if socksAttemptOk e.httpNet then (some e.httpMs, 2)
  else (none, 2)

/-- Python's `list.sort(key=lambda x: x[1])` on `(item, ms)` pairs: timsort
is a stable merge sort, modelled by the stable `List.mergeSort` comparing
the `ms` components with `≤`. -/
def pySortByMs {α : Type} (l : List (α × Ms)) : List (α × Ms) :=
  l.mergeSort (fun a b => decide (a.2 ≤ b.2))

/-- Successful `(hostport, ms)` outcomes appended by `validate_socks`'s
`run_one` tasks to the shared `ok` list. The argument list is the probe
environments in append (task-completion) order — a scheduler-chosen
permutation of the candidate list, see the modelling conventions above —
so the result is the shared list exactly as the appends built it. -/
def socksOk (ps : List SocksProbeEnv) : List (String × Ms) :=
  ps.filterMap (fun e => (check_socks e).1.map (fun ms => (e.hostport, ms)))

/-- Embedding of `validate_socks` (update.py lines 178-190): the shared
`ok` list as built by the appends (argument in task-completion order),
stably sorted by elapsed ms (`ok.sort(key=lambda x: x[1])`). -/
def validate_socks (ps : List SocksProbeEnv) : List (String × Ms) :=
  pySortByMs (socksOk ps)

/-- The shared `http_ok` list of `validate_forward` before sorting: one
`(hostport, ms)` entry per candidate whose HTTP attempt succeeded. The
argument list is the probe environments in append (task-completion) order;
a candidate's `http_ok` and `https_ok` entries are appended together, after
both of its attempts finish, so one completion order governs both lists. -/
def forwardHttpOk (ps : List ForwardProbeEnv) : List (String × Ms) :=
  ps.filterMap (fun e => (check_forward_proxy e).1.map (fun ms => (e.hostport, ms)))

/-- The shared `https_ok` list of `validate_forward` before sorting, built
from the same append-order list as `forwardHttpOk`. -/
def forwardHttpsOk (ps : List ForwardProbeEnv) : List (String × Ms) :=
  ps.filterMap (fun e => (check_forward_proxy e).2.map (fun ms => (e.hostport, ms)))

/-- Result of `validate_forward`: the two working lists (host:port strings
only) and the working counts it reports. -/
structure ForwardResult where
  http : List String
  https : List String
  httpWorking : ℕ
  httpsWorking : ℕ
deriving DecidableEq, Repr

/-- Embedding of `validate_forward` (update.py lines 193-217): stably sort
the shared `http_ok` and `https_ok` lists (argument in task-completion
order) by elapsed ms, keep only the `host:port` strings, and report
`len(http_ok)` / `len(https_ok)` as working counts. -/
def validate_forward (ps : List ForwardProbeEnv) : ForwardResult :=
  { http := (pySortByMs (forwardHttpOk ps)).map (·.1)
    https := (pySortByMs (forwardHttpsOk ps)).map (·.1)
    httpWorking := (forwardHttpOk ps).length
    httpsWorking := (forwardHttpsOk ps).length }

/-- Embedding of Python `sorted(set(...))` on strings: deduplicate, then
sort lexically (the unique strictly-increasing enumeration of the set). -/
def pySortedSet (l : List String) : List String :=
  l.dedup.mergeSort (fun a b => decide (a ≤ b))

/-- Input of one full run of `main`: the probe environments of the capped
candidate sets of each protocol class (`forward_proxies`, `socks4_proxies`,
`socks5_proxies`), each list given in the append (task-completion) order of
its validation run — a scheduler-chosen permutation of the lexically
sorted candidate list. -/
structure RunInput where
  forward : List ForwardProbeEnv
  socks4 : List SocksProbeEnv
  socks5 : List SocksProbeEnv
deriving DecidableEq, Repr

/-- The per-protocol `working` counts of the `stats` record built by `main`
(lines 297-316), computed after the HTTPS fallback. -/
structure WorkingCounts where
  http : ℕ
  https : ℕ
  socks4 : ℕ
  socks5 : ℕ
  all : ℕ
deriving DecidableEq, Repr

/-- The published artifacts of one run: the five working lists written by
`write_txt` plus the working counts of the stats record. -/
structure RunOutput where
  http : List String
  https : List String
  socks4 : List String
  socks5 : List String
  all : List String
  counts : WorkingCounts
deriving DecidableEq, Repr

/-- Embedding of the post-validation part of `main` (update.py lines
274-316): the HTTP to HTTPS fallback (lines 283-287, `if not forward_https
and forward_http: forward_https = list(forward_http)`), the `all` union
(line 289), the five written lists and the working counts. -/
def runOutputs (inp : RunInput) : RunOutput :=
  let fr := validate_forward inp.forward
  let socks4w := (validate_socks inp.socks4).map (·.1)
  let socks5w := (validate_socks inp.socks5).map (·.1)
  let https := if fr.https.isEmpty && !fr.http.isEmpty then fr.http else fr.https
  let allw := pySortedSet (fr.http ++ https ++ socks4w ++ socks5w)
  { http := fr.http
    https := https
    socks4 := socks4w
    socks5 := socks5w
    all := allw
    counts :=
      { http := fr.http.length
        https := https.length
        socks4 := socks4w.length
        socks5 := socks5w.length
        all := allw.length } }

/-- Embedding of a whole `main` run with aborts made explicit: `main` has
no abort branch after the candidate lists are formed — in particular there
is no emptiness check on the candidate input — so the run always completes
and publishes its outputs. A fatal user-visible abort would be modelled as
`Except.error`. -/
def mainRun (inp : RunInput) : Except String RunOutput :=
  Except.ok (runOutputs inp)

/-- The five output files written by `main` via `write_txt` (lines
291-295), as (name, contents) pairs; `write_txt` creates the file even for
an empty list. -/
def outputFiles (o : RunOutput) : List (String × List String) :=
  [("http.txt", o.http), ("https.txt", o.https), ("socks4.txt", o.socks4),
   ("socks5.txt", o.socks5), ("all.txt", o.all)]

/-- State of one bounded validation run: `pending` tasks that have not yet
acquired the semaphore, `active` probes currently inside the `async with
sem` block, and the semaphore's remaining `permits`. Models the
`asyncio.Semaphore(concurrency)` created afresh inside each
`validate_socks` / `validate_forward` call (lines 179 and 199), so each
protocol class's run has its own independent gate instance and its own
state of this type. -/
structure SemState where
  pending : ℕ
  active : ℕ
  permits : ℕ
deriving DecidableEq, Repr

/-- Transitions of a bounded validation run: a pending task acquires the
semaphore when a permit is available and its probe becomes active, or an
active probe finishes (successfully or not) and releases its permit.
Probe completion order is unconstrained. -/
inductive SemStep : SemState → SemState → Prop
  | acquire (s : SemState) (hp : 0 < s.pending) (hc : 0 < s.permits) :
      SemStep s ⟨s.pending - 1, s.active + 1, s.permits - 1⟩
  | release (s : SemState) (ha : 0 < s.active) :
      SemStep s ⟨s.pending, s.active - 1, s.permits + 1⟩

/-- Initial state of a validation run over `k` candidates with concurrency
ceiling `c`: all `k` probe tasks pending, none active, `c` permits. -/
def semInit (k c : ℕ) : SemState := ⟨k, 0, c⟩

/-- States reachable during a validation run over `k` candidates with
ceiling `c`. -/
def SemReachable (k c : ℕ) (s : SemState) : Prop :=
  Relation.ReflTransGen SemStep (semInit k c) s

/-- Candidate-parser embedding follows. Python's `str.strip()` and the
regex class `\s`, restricted to ASCII whitespace. -/
def pyIsSpace (c : Char) : Bool :=
  c.toNat = 32 || (9 ≤ c.toNat && c.toNat ≤ 13)

/-- Python `str.strip()`: drop whitespace from both ends. -/
def stripPy (l : List Char) : List Char :=
  ((l.dropWhile pyIsSpace).reverse.dropWhile pyIsSpace).reverse

/-- Python `str.splitlines()`, restricted to the terminators `\n`, `\r`
and `\r\n` (the exotic unicode terminators are out of model). Unlike
Python, a terminated final line yields a trailing empty string; empty
lines are skipped by `parse_candidates` anyway. -/
def splitLinesPy : List Char → List (List Char)
  | [] => [[]]
  | '\r' :: '\n' :: rest => [] :: splitLinesPy rest
  | '\r' :: rest => [] :: splitLinesPy rest
  | '\n' :: rest => [] :: splitLinesPy rest
  | c :: rest =>
    match splitLinesPy rest with
    | [] => [[c]]
    | line :: lines => (c :: line) :: lines

/-- The regex piece `\d{m,n}` applied greedily: take the leading digit run,
succeed iff its length is within bounds. Because a digit can never match
the regex token that follows each digit-run in `PROXY_RE` (`\.`, `\s`, `:`
or end), greedy matching without backtracking is equivalent to the regex
engine's backtracking semantics here. -/
def takeDigits (lo hi : ℕ) (l : List Char) : Option (List Char × List Char) :=
  if lo ≤ (l.takeWhile Char.isDigit).length ∧ (l.takeWhile Char.isDigit).length ≤ hi then
    some (l.takeWhile Char.isDigit, l.dropWhile Char.isDigit)
  else none

/-- Expect a literal character. -/
def expectChar (c : Char) : List Char → Option (List Char)
  | d :: rest => if d = c then some rest else none
  | [] => none

/-- Embedding of `PROXY_RE.match` (update.py line 30):
`^\s*(?P<host>\d{1,3}(?:\.\d{1,3}){3})\s*:\s*(?P<port>\d{2,5})\s*$`.
Returns the `host` group's characters and the `port` group's characters. -/
def proxyReMatch (l : List Char) : Option (List Char × List Char) := do
  let l1 := l.dropWhile pyIsSpace
  let (d1, l2) ← takeDigits 1 3 l1
  let l3 ← expectChar '.' l2
  let (d2, l4) ← takeDigits 1 3 l3
  let l5 ← expectChar '.' l4
  let (d3, l6) ← takeDigits 1 3 l5
  let l7 ← expectChar '.' l6
  let (d4, l8) ← takeDigits 1 3 l7
  let l9 ← expectChar ':' (l8.dropWhile pyIsSpace)
  let (pd, l10) ← takeDigits 2 5 (l9.dropWhile pyIsSpace)
  if l10.dropWhile pyIsSpace = [] then
    some (d1 ++ '.' :: d2 ++ '.' :: d3 ++ '.' :: d4, pd)
  else none

/-- Python `int()` on a digit string. -/
def digitsVal (ds : List Char) : ℕ :=
  ds.foldl (fun n c => 10 * n + (c.toNat - 48)) 0

/-- Decimal rendering of a number, as the f-string `f"{host}:{port}"`
renders the already-converted `int` port (leading zeros are gone). -/
def natDigits (n : ℕ) : List Char :=
  Nat.toDigits 10 n

/-- Embedding of `parse_candidates` (update.py lines 69-82): per stripped
non-empty non-comment line, match `PROXY_RE`, convert the port text with
`int`, keep the candidate iff `1 <= port <= 65535`, and emit
`f"{host}:{port}"`. -/
def parse_candidates (text : List Char) : List (List Char) :=
  (splitLinesPy text).filterMap (fun raw =>
    let line := stripPy raw
    if line = [] then none
    else if line.head? = some '#' then none
    else
      match proxyReMatch line with
      | none => none
      | some (host, pd) =>
        let port := digitsVal pd
        if 1 ≤ port ∧ port ≤ 65535 then some (host ++ ':' :: natDigits port) else none)

/-! Helper lemmas about the stable sort, shared by several results. -/

theorem msLe_trans {α : Type} (a b c : α × Ms)
    (hab : decide (a.2 ≤ b.2) = true) (hbc : decide (b.2 ≤ c.2) = true) :
    decide (a.2 ≤ c.2) = true := by
  simp only [decide_eq_true_eq] at *
  exact le_trans hab hbc

theorem msLe_total {α : Type} (a b : α × Ms) :
    (decide (a.2 ≤ b.2) || decide (b.2 ≤ a.2)) = true := by
  simp only [Bool.or_eq_true, decide_eq_true_eq]
  exact le_total a.2 b.2

theorem pySortByMs_perm {α : Type} (l : List (α × Ms)) : (pySortByMs l).Perm l :=
  List.mergeSort_perm l _

theorem pySortByMs_sorted {α : Type} (l : List (α × Ms)) :
    (pySortByMs l).Pairwise (fun a b => a.2 ≤ b.2) := by
  have h := @List.sorted_mergeSort (α × Ms) (fun a b => decide (a.2 ≤ b.2))
    msLe_trans msLe_total l
  exact h.imp (fun hab => by simpa using hab)

theorem pySortByMs_filter_eq {α : Type} (l : List (α × Ms)) (q : Ms) :
    (pySortByMs l).filter (fun x => decide (x.2 = q)) =
      l.filter (fun x => decide (x.2 = q)) := by
  have hsub : (l.filter (fun x => decide (x.2 = q))).Sublist l := List.filter_sublist l
  have hpair : (l.filter (fun x => decide (x.2 = q))).Pairwise
      (fun a b : α × Ms => decide (a.2 ≤ b.2)) := by
    rw [List.pairwise_iff_forall_sublist]
    intro a b hab
    have ha := hab.subset (List.mem_cons_self a [b])
    have hb := hab.subset (List.mem_cons_of_mem a (List.mem_cons_self b []))
    have ha' := (List.mem_filter.mp ha).2
    have hb' := (List.mem_filter.mp hb).2
    simp only [decide_eq_true_eq] at ha' hb' ⊢
    rw [ha', hb']
  have hstable : (l.filter (fun x => decide (x.2 = q))).Sublist (pySortByMs l) :=
    List.sublist_mergeSort msLe_trans msLe_total hpair hsub
  have hfil : (l.filter (fun x => decide (x.2 = q))).Sublist
      ((pySortByMs l).filter (fun x => decide (x.2 = q))) := by
    have := hstable.filter (fun x => decide (x.2 = q))
    rwa [List.filter_filter, show ((fun x : α × Ms => decide (x.2 = q) && decide (x.2 = q))) =
      (fun x : α × Ms => decide (x.2 = q)) from funext (fun x => Bool.and_self _)] at this
  have hperm : ((pySortByMs l).filter (fun x => decide (x.2 = q))).Perm
      (l.filter (fun x => decide (x.2 = q))) := (pySortByMs_perm l).filter _
  exact (hfil.eq_of_length hperm.length_eq.symm).symm

theorem pySortByMs_schedule_indep {α : Type} (l1 l2 : List (α × Ms))
    (hp : l1.Perm l2) (hnd : l1.Pairwise (fun a b => a.2 ≠ b.2)) :
    pySortByMs l1 = pySortByMs l2 := by
  have hs1 := pySortByMs_sorted l1
  have hs2 := pySortByMs_sorted l2
  have hperm : (pySortByMs l1).Perm (pySortByMs l2) :=
    (pySortByMs_perm l1).trans (hp.trans (pySortByMs_perm l2).symm)
  have hsymm : ∀ {x y : α × Ms}, x.2 ≠ y.2 → y.2 ≠ x.2 :=
    fun h heq => h heq.symm
  have hnd1 : (pySortByMs l1).Pairwise (fun a b => a.2 ≠ b.2) :=
    ((pySortByMs_perm l1).pairwise_iff hsymm).mpr hnd
  have hnd2 : (pySortByMs l2).Pairwise (fun a b => a.2 ≠ b.2) :=
    ((pySortByMs_perm l2).pairwise_iff hsymm).mpr
      ((hp.pairwise_iff hsymm).mp hnd)
  have hst1 : (pySortByMs l1).Pairwise (fun a b => a.2 < b.2) :=
    hs1.imp₂ (fun _ _ hle hne => lt_of_le_of_ne hle hne) hnd1
  have hst2 : (pySortByMs l2).Pairwise (fun a b => a.2 < b.2) :=
    hs2.imp₂ (fun _ _ hle hne => lt_of_le_of_ne hle hne) hnd2
  haveI : IsAntisymm (α × Ms) (fun a b => a.2 < b.2) :=
    ⟨fun _ _ h1 h2 => absurd h1 (lt_asymm h2)⟩
  exact List.eq_of_perm_of_sorted hperm hst1 hst2

theorem semReachable_invariant {k c : ℕ} {s : SemState}
    (h : SemReachable k c s) : s.active + s.permits = c := by
  induction h with
  | refl => simp [semInit]
  | tail _ step ih =>
    cases step with
    | acquire hp hc => dsimp only ; omega
    | release ha => dsimp only ; omega

theorem mem_okList {β : Type} (f : β → Option Ms) (g : β → String)
    (ps : List β) (x : String × Ms)
    (hx : x ∈ ps.filterMap (fun e => (f e).map (fun ms => (g e, ms)))) :
    ∃ e ∈ ps, g e = x.1 ∧ f e = some x.2 := by
  rw [List.mem_filterMap] at hx
  obtain ⟨e, he, hfe⟩ := hx
  cases h : f e with
  | none => rw [h] at hfe ; simp at hfe
  | some ms =>
    rw [h] at hfe
    have hx2 : (g e, ms) = x := by simpa using hfe
    subst hx2
    exact ⟨e, he, rfl, h⟩

theorem takeDigits_spec {lo hi : ℕ} {l ds rest : List Char}
    (h : takeDigits lo hi l = some (ds, rest)) :
    lo ≤ ds.length ∧ ds.length ≤ hi ∧ ∀ c ∈ ds, c.isDigit = true := by
  unfold takeDigits at h
  split at h
  · rename_i hlen
    injection h with h'
    injection h' with h1 h2
    subst h1
    exact ⟨hlen.1, hlen.2, fun c hc => List.mem_takeWhile_imp hc⟩
  · simp at h

theorem proxyReMatch_port {l host pd : List Char}
    (h : proxyReMatch l = some (host, pd)) :
    2 ≤ pd.length ∧ pd.length ≤ 5 ∧ ∀ c ∈ pd, c.isDigit = true := by
  unfold proxyReMatch at h
  simp only [Option.bind_eq_bind, Option.bind_eq_some] at h
  obtain ⟨⟨d1, l2⟩, h1, ⟨l3, h3, ⟨⟨d2, l4⟩, h4, ⟨l5, h5, ⟨⟨d3, l6⟩, h6,
    ⟨l7, h7, ⟨⟨d4, l8⟩, h8, ⟨l9, h9, ⟨⟨pd', l10⟩, h10, hfin⟩⟩⟩⟩⟩⟩⟩⟩⟩ := h
  split at hfin
  · injection hfin with hfin'
    injection hfin' with hh hp
    subst hp
    exact takeDigits_spec h10
  · simp at hfin

theorem pySortByMs_nil {α : Type} : pySortByMs ([] : List (α × Ms)) = [] :=
  List.mergeSort_nil

theorem pySortByMs_single {α : Type} (a : α × Ms) : pySortByMs [a] = [a] :=
  List.mergeSort_singleton a

theorem pySortedSet_nil : pySortedSet [] = [] := by
  simp [pySortedSet]

theorem forwardAttempt_eq (net : NetResult) (t : Ms) :
    (forwardAttempt net t = some t ↔ check_via_proxy net = some true)
  ∧ (forwardAttempt net t = none ↔ check_via_proxy net ≠ some true) := by
  unfold forwardAttempt
  cases h : check_via_proxy net with
  | none => simp
  | some b => cases b <;> simp

/-! Claim theorems. -/

/-- C1: HTTP-to-HTTPS fallback. If after validation the https working list
is empty and the http working list is non-empty, the published https list
equals the published http list (same entries, same order); if the http
list is also empty, the https list stays empty; the published http list is
always exactly the validated http list (a populated https list is never
used to backfill an empty http list), and a non-empty validated https list
is published unchanged (the substitution happens at most once, only in the
http-to-https direction). -/
theorem https_fallback (inp : RunInput) :
    ((validate_forward inp.forward).https = [] → (validate_forward inp.forward).http ≠ [] →
      (runOutputs inp).https = (runOutputs inp).http)
  ∧ ((validate_forward inp.forward).https = [] → (validate_forward inp.forward).http = [] →
      (runOutputs inp).https = [])
  ∧ ((validate_forward inp.forward).https ≠ [] →
      (runOutputs inp).https = (validate_forward inp.forward).https)
  ∧ (runOutputs inp).http = (validate_forward inp.forward).http := by
  refine ⟨?_, ?_, ?_, rfl⟩
  · intro h1 h2
    simp [runOutputs, h1, h2]
  · intro h1 h2
    simp [runOutputs, h1, h2]
  · intro h1
    simp [runOutputs, h1]

/-- Witness for C1 at a concrete run: one forward candidate that passes the
HTTP probe in 50 ms and fails the HTTPS probe, so the validated https list
is empty and the published https list equals the published http list. -/
theorem https_fallback_witness :
    (runOutputs ⟨[⟨"1.2.3.4:8080", some ⟨200, true⟩, 50, none, 0⟩], [], []⟩).https =
      (runOutputs ⟨[⟨"1.2.3.4:8080", some ⟨200, true⟩, 50, none, 0⟩], [], []⟩).http :=
  (https_fallback _).1
    (by simp [validate_forward, forwardHttpsOk, check_forward_proxy, forwardAttempt,
          check_via_proxy, pySortByMs_nil])
    (by simp [validate_forward, forwardHttpOk, check_forward_proxy, forwardAttempt,
          check_via_proxy, pySortByMs_single])

/-- C3 counterexample: a run whose candidate input is empty for all
protocol classes does not abort — it completes (`Except.ok`) and writes
all five output files — contradicting the claim that such a run aborts
with a user-visible error before producing any output files. -/
theorem empty_input_run_completes :
    (mainRun ⟨[], [], []⟩).isOk = true
  ∧ (outputFiles (runOutputs ⟨[], [], []⟩)).map Prod.fst =
      ["http.txt", "https.txt", "socks4.txt", "socks5.txt", "all.txt"] := by
  exact ⟨rfl, rfl⟩

/-- C3 amended: a run with empty candidate input does not abort; it
completes successfully and publishes five empty lists with all working
counts zero (a degraded empty result, not a fatal condition). -/
theorem empty_input_degrades_gracefully :
    mainRun ⟨[], [], []⟩ = Except.ok
      { http := [], https := [], socks4 := [], socks5 := [], all := []
        counts := { http := 0, https := 0, socks4 := 0, socks5 := 0, all := 0 } } := by
  simp [mainRun, runOutputs, validate_forward, validate_socks, socksOk,
    forwardHttpOk, forwardHttpsOk, pySortByMs_nil, pySortedSet_nil]

/-- C5: SOCKS probe policy. The probe tries the HTTPS test endpoint first:
if that attempt succeeds (no exception, status < 400, body fully read) the
probe returns its cumulative elapsed time after issuing only one attempt
(the plain-HTTP endpoint is never attempted); if the HTTPS attempt fails
and the HTTP attempt succeeds, the probe returns the cumulative elapsed
time of the second attempt; if both fail, the candidate yields no outcome.
The last conjunct characterises attempt success as status < 400 with the
body fully read. The single `Option Ms` result makes "at most one outcome
per SOCKS candidate" structural. -/
theorem socks_probe_policy (e : SocksProbeEnv) :
    (socksAttemptOk e.httpsNet = true → check_socks e = (some e.httpsMs, 1))
  ∧ (socksAttemptOk e.httpsNet = false → socksAttemptOk e.httpNet = true →
      check_socks e = (some e.httpMs, 2))
  ∧ (socksAttemptOk e.httpsNet = false → socksAttemptOk e.httpNet = false →
      check_socks e = (none, 2))
  ∧ (∀ n : NetResult, socksAttemptOk n = true ↔
      ∃ r, n = some r ∧ r.status < 400 ∧ r.readOk = true) := by
  refine ⟨fun h1 => by simp [check_socks, h1],
          fun h1 h2 => by simp [check_socks, h1, h2],
          fun h1 h2 => by simp [check_socks, h1, h2],
          fun n => ?_⟩
  cases n with
  | none => simp [socksAttemptOk]
  | some r => simp [socksAttemptOk]

/-- Witness for C5 at a concrete probe: the HTTPS attempt succeeds after a
cumulative 30 ms, so the probe returns `(some 30, 1)` without issuing the
second attempt. -/
theorem socks_probe_policy_witness :
    socksAttemptOk (some ⟨200, true⟩) = true
  ∧ check_socks ⟨"1.2.3.4:1080", some ⟨200, true⟩, 30, some ⟨200, true⟩, 45⟩ =
      (some 30, 1) :=
  ⟨by decide, (socks_probe_policy _).1 (by decide)⟩

/-- C7 refuted: `check_forward_proxy` creates a single
`aiohttp.ClientSession` (with one `TCPConnector`) at line 138 and issues
both the HTTP attempt and the HTTPS attempt through it, so the two
attempts do not use independent connections/sessions (which would require
at least one session per attempt). -/
theorem forward_session_cex :
    forwardSessionsPerProbe = 1 ∧ ¬ 2 ≤ forwardSessionsPerProbe := by decide

/-- C7 amended: the forward probe makes two attempts producing zero, one,
or two outcomes; each attempt's outcome depends only on that attempt's own
network result and its own timer reading (started immediately before the
request), so the outcome and timing of one attempt are unaffected by the
other — but the attempts are issued sequentially over one shared
session/connector rather than independent sessions. -/
theorem forward_probe_independent :
    (∀ (hp hp' : String) (hn : NetResult) (hm : Ms) (sn sn' : NetResult) (sm sm' : Ms),
      (check_forward_proxy ⟨hp, hn, hm, sn, sm⟩).1 =
        (check_forward_proxy ⟨hp', hn, hm, sn', sm'⟩).1)
  ∧ (∀ (hp hp' : String) (hn hn' : NetResult) (hm hm' : Ms) (sn : NetResult) (sm : Ms),
      (check_forward_proxy ⟨hp, hn, hm, sn, sm⟩).2 =
        (check_forward_proxy ⟨hp', hn', hm', sn, sm⟩).2)
  ∧ (∀ e : ForwardProbeEnv,
      ((check_forward_proxy e).1 = some e.httpMs ↔ check_via_proxy e.httpNet = some true)
      ∧ ((check_forward_proxy e).1 = none ↔ check_via_proxy e.httpNet ≠ some true)
      ∧ ((check_forward_proxy e).2 = some e.httpsMs ↔ check_via_proxy e.httpsNet = some true)
      ∧ ((check_forward_proxy e).2 = none ↔ check_via_proxy e.httpsNet ≠ some true)) :=
  ⟨fun _ _ _ _ _ _ _ _ => rfl, fun _ _ _ _ _ _ _ _ => rfl, fun e =>
    ⟨(forwardAttempt_eq e.httpNet e.httpMs).1, (forwardAttempt_eq e.httpNet e.httpMs).2,
     (forwardAttempt_eq e.httpsNet e.httpsMs).1, (forwardAttempt_eq e.httpsNet e.httpsMs).2⟩⟩

/-- C9: bounded concurrency. In any state reachable during a validation
run over `k` candidates with concurrency ceiling `c` (each run has its own
semaphore instance and hence its own state), at most `c` probes are
simultaneously active. -/
theorem bounded_concurrency (k c : ℕ) (s : SemState) (h : SemReachable k c s) :
    s.active ≤ c := by
  have hinv := semReachable_invariant h
  omega

/-- Witness for C9 at the configured defaults (2000 candidates, ceiling
200): after one acquire step, one probe is active, which is at most 200. -/
theorem bounded_concurrency_witness :
    SemReachable 2000 200 ⟨1999, 1, 199⟩ ∧ (SemState.mk 1999 1 199).active ≤ 200 :=
  ⟨Relation.ReflTransGen.single (SemStep.acquire (semInit 2000 200) (by decide) (by decide)),
   bounded_concurrency 2000 200 _
     (Relation.ReflTransGen.single (SemStep.acquire (semInit 2000 200) (by decide) (by decide)))⟩

theorem mem_sorted_okList {β : Type} (f : β → Option Ms) (g : β → String)
    (ps : List β) (hp : String)
    (h : hp ∈ (pySortByMs (ps.filterMap (fun e => (f e).map (fun ms => (g e, ms))))).map (·.1)) :
    ∃ e ∈ ps, g e = hp ∧ (f e).isSome = true := by
  rw [List.mem_map] at h
  obtain ⟨x, hx, hfst⟩ := h
  unfold pySortByMs at hx
  rw [List.mem_mergeSort] at hx
  obtain ⟨e, he, hg, hf⟩ := mem_okList f g ps x hx
  exact ⟨e, he, hg.trans hfst, by rw [hf] ; rfl⟩

theorem pySortByMs_eq_nil {α : Type} {l : List (α × Ms)}
    (h : pySortByMs l = []) : l = [] := by
  have hperm := pySortByMs_perm l
  rw [h] at hperm
  exact hperm.symm.eq_nil

theorem strLe_trans (a b c : String)
    (hab : decide (a ≤ b) = true) (hbc : decide (b ≤ c) = true) :
    decide (a ≤ c) = true := by
  simp only [decide_eq_true_eq] at *
  exact le_trans hab hbc

theorem strLe_total (a b : String) : (decide (a ≤ b) || decide (b ≤ a)) = true := by
  simp only [Bool.or_eq_true, decide_eq_true_eq]
  exact le_total a b

theorem pySortedSet_nodup (l : List String) : (pySortedSet l).Nodup :=
  (List.mergeSort_perm l.dedup _).symm.nodup (List.nodup_dedup l)

theorem pySortedSet_sorted (l : List String) : (pySortedSet l).Pairwise (· < ·) := by
  have hle : (pySortedSet l).Pairwise (· ≤ ·) :=
    (@List.sorted_mergeSort String (fun a b => decide (a ≤ b))
      strLe_trans strLe_total l.dedup).imp (fun h => by simpa using h)
  exact List.Sorted.lt_of_le hle (pySortedSet_nodup l)

theorem mem_pySortedSet (l : List String) (s : String) :
    s ∈ pySortedSet l ↔ s ∈ l := by
  unfold pySortedSet
  rw [List.mem_mergeSort, List.mem_dedup]

theorem union_mem_spec (L1 L2 L3 L4 : List String) (s : String) :
    s ∈ pySortedSet (L1 ++ L2 ++ L3 ++ L4) ↔
      s ∈ L1 ∨ s ∈ L2 ∨ s ∈ L3 ∨ s ∈ L4 := by
  rw [mem_pySortedSet]
  simp [List.mem_append, or_assoc]

/-- C2 amended: ranking order. For each of the four per-protocol working
lists (http and https of `validate_forward`, and `validate_socks` runs for
socks4 and socks5), given the candidate list and the append-order list of
its validation run (the scheduler-chosen task-completion order, an
arbitrary permutation of the candidate list): the published list is
exactly the host:port strings of the sorted outcome list (timing values
are not kept); the sorted outcome list is ascending in elapsed ms;
outcomes of any fixed elapsed value appear in exactly their shared-list
append order, which is the completion order and need not be the candidate
or lexical order; and when all elapsed values of the outcome list are
distinct, the published list is independent of the completion order. -/
theorem ranking_order (ps cs : List ForwardProbeEnv)
    (qs4 ds4 qs5 ds5 : List SocksProbeEnv)
    (hperm : cs.Perm ps) (hperm4 : ds4.Perm qs4) (hperm5 : ds5.Perm qs5) :
    ((validate_forward cs).http = (pySortByMs (forwardHttpOk cs)).map (·.1)
      ∧ (pySortByMs (forwardHttpOk cs)).Pairwise (fun a b => a.2 ≤ b.2)
      ∧ (∀ q : Ms, (pySortByMs (forwardHttpOk cs)).filter (fun x => decide (x.2 = q)) =
          (forwardHttpOk cs).filter (fun x => decide (x.2 = q)))
      ∧ ((forwardHttpOk cs).Pairwise (fun a b => a.2 ≠ b.2) →
          pySortByMs (forwardHttpOk cs) = pySortByMs (forwardHttpOk ps)))
  ∧ ((validate_forward cs).https = (pySortByMs (forwardHttpsOk cs)).map (·.1)
      ∧ (pySortByMs (forwardHttpsOk cs)).Pairwise (fun a b => a.2 ≤ b.2)
      ∧ (∀ q : Ms, (pySortByMs (forwardHttpsOk cs)).filter (fun x => decide (x.2 = q)) =
          (forwardHttpsOk cs).filter (fun x => decide (x.2 = q)))
      ∧ ((forwardHttpsOk cs).Pairwise (fun a b => a.2 ≠ b.2) →
          pySortByMs (forwardHttpsOk cs) = pySortByMs (forwardHttpsOk ps)))
  ∧ (validate_socks ds4 = pySortByMs (socksOk ds4)
      ∧ (validate_socks ds4).Pairwise (fun a b => a.2 ≤ b.2)
      ∧ (∀ q : Ms, (validate_socks ds4).filter (fun x => decide (x.2 = q)) =
          (socksOk ds4).filter (fun x => decide (x.2 = q)))
      ∧ ((socksOk ds4).Pairwise (fun a b => a.2 ≠ b.2) →
          validate_socks ds4 = validate_socks qs4))
  ∧ (validate_socks ds5 = pySortByMs (socksOk ds5)
      ∧ (validate_socks ds5).Pairwise (fun a b => a.2 ≤ b.2)
      ∧ (∀ q : Ms, (validate_socks ds5).filter (fun x => decide (x.2 = q)) =
          (socksOk ds5).filter (fun x => decide (x.2 = q)))
      ∧ ((socksOk ds5).Pairwise (fun a b => a.2 ≠ b.2) →
          validate_socks ds5 = validate_socks qs5)) := by
  refine ⟨⟨rfl, pySortByMs_sorted _, fun q => pySortByMs_filter_eq _ q, fun hnd =>
            pySortByMs_schedule_indep _ _ (hperm.filterMap _) hnd⟩,
          ⟨rfl, pySortByMs_sorted _, fun q => pySortByMs_filter_eq _ q, fun hnd =>
            pySortByMs_schedule_indep _ _ (hperm.filterMap _) hnd⟩,
          ⟨rfl, pySortByMs_sorted _, fun q => pySortByMs_filter_eq _ q, fun hnd =>
            pySortByMs_schedule_indep _ _ (hperm4.filterMap _) hnd⟩,
          ⟨rfl, pySortByMs_sorted _, fun q => pySortByMs_filter_eq _ q, fun hnd =>
            pySortByMs_schedule_indep _ _ (hperm5.filterMap _) hnd⟩⟩

/-- Witness for C2 at a concrete run whose completion order equals the
candidate order: one forward candidate whose HTTP attempt succeeds in
50 ms; the sorted http outcome list is ascending in elapsed ms. -/
theorem ranking_order_witness :
    (pySortByMs (forwardHttpOk [⟨"1.1.1.1:80", some ⟨200, true⟩, 50, none, 0⟩])).Pairwise
      (fun a b => a.2 ≤ b.2) :=
  (ranking_order [⟨"1.1.1.1:80", some ⟨200, true⟩, 50, none, 0⟩]
    [⟨"1.1.1.1:80", some ⟨200, true⟩, 50, none, 0⟩] [] [] [] []
    (List.Perm.refl _) (List.Perm.refl _) (List.Perm.refl _)).1.2.1

/-- C2 counterexample: two forward candidates, lexically ordered
`1.1.1.1:80` before `2.2.2.2:80`, both passing the HTTP probe in exactly
50 ms. Under the completion order that finishes `2.2.2.2:80` first (a
permutation of the candidate list, as when the first candidate's HTTPS
attempt runs to its timeout while the second's fails instantly), the
published http list is `[2.2.2.2:80, 1.1.1.1:80]`: equal-elapsed entries
in completion order, not in the original (lexical) candidate order. -/
theorem ranking_tie_break_cex :
    ([(⟨"2.2.2.2:80", some ⟨200, true⟩, 50, none, 0⟩ : ForwardProbeEnv),
      ⟨"1.1.1.1:80", some ⟨200, true⟩, 50, none, 0⟩]).Perm
      [⟨"1.1.1.1:80", some ⟨200, true⟩, 50, none, 0⟩,
       ⟨"2.2.2.2:80", some ⟨200, true⟩, 50, none, 0⟩]
  ∧ (validate_forward
      [⟨"2.2.2.2:80", some ⟨200, true⟩, 50, none, 0⟩,
       ⟨"1.1.1.1:80", some ⟨200, true⟩, 50, none, 0⟩]).http =
      ["2.2.2.2:80", "1.1.1.1:80"]
  ∧ ("1.1.1.1:80" : String) < "2.2.2.2:80" := by
  refine ⟨List.Perm.swap _ _ _, ?_, ?_⟩
  · have hok : forwardHttpOk
        [⟨"2.2.2.2:80", some ⟨200, true⟩, 50, none, 0⟩,
         ⟨"1.1.1.1:80", some ⟨200, true⟩, 50, none, 0⟩] =
        [(("2.2.2.2:80" : String), (50 : Ms)), ("1.1.1.1:80", 50)] := rfl
    have hsorted : pySortByMs [(("2.2.2.2:80" : String), (50 : Ms)), ("1.1.1.1:80", 50)] =
        [("2.2.2.2:80", 50), ("1.1.1.1:80", 50)] :=
      List.mergeSort_of_sorted (by simp)
    show (pySortByMs (forwardHttpOk _)).map (·.1) = _
    rw [hok, hsorted]
    rfl
  · rw [String.lt_iff_toList_lt]
    decide

/-- C4 counterexample: for the run with one forward candidate that passes
the HTTP probe but whose HTTPS attempt raises, the published https list
contains `1.2.3.4:8080` even though no candidate produced any successful
https-capability probe outcome (the https outcome list is empty), so not
every https entry comes from a successful https-capability probe. -/
theorem https_membership_cex :
    (runOutputs ⟨[⟨"1.2.3.4:8080", some ⟨200, true⟩, 50, none, 0⟩], [], []⟩).https =
      ["1.2.3.4:8080"]
  ∧ (check_forward_proxy ⟨"1.2.3.4:8080", some ⟨200, true⟩, 50, none, 0⟩).2 = none
  ∧ forwardHttpsOk [⟨"1.2.3.4:8080", some ⟨200, true⟩, 50, none, 0⟩] = [] := by
  refine ⟨?_, rfl, rfl⟩
  simp [runOutputs, validate_forward, forwardHttpsOk, forwardHttpOk,
    check_forward_proxy, forwardAttempt, check_via_proxy,
    pySortByMs_nil, pySortByMs_single]

/-- C4 amended: every entry of the published http, socks4 and socks5 lists
corresponds to a candidate with a successful probe outcome for that list's
protocol/capability; every entry of the published https list corresponds
to a candidate with a successful https-capability outcome, or — when no
candidate at all produced a successful https-capability outcome — to a
candidate with a successful http-capability outcome (the fallback copy). -/
theorem working_list_membership (inp : RunInput) :
    (∀ hp ∈ (runOutputs inp).http, ∃ e ∈ inp.forward, e.hostport = hp ∧
      ((check_forward_proxy e).1).isSome = true)
  ∧ (∀ hp ∈ (runOutputs inp).socks4, ∃ e ∈ inp.socks4, e.hostport = hp ∧
      ((check_socks e).1).isSome = true)
  ∧ (∀ hp ∈ (runOutputs inp).socks5, ∃ e ∈ inp.socks5, e.hostport = hp ∧
      ((check_socks e).1).isSome = true)
  ∧ (∀ hp ∈ (runOutputs inp).https, ∃ e ∈ inp.forward, e.hostport = hp ∧
      (((check_forward_proxy e).2).isSome = true ∨
        (forwardHttpsOk inp.forward = [] ∧ ((check_forward_proxy e).1).isSome = true))) := by
  refine ⟨?_, ?_, ?_, ?_⟩
  · intro hp h
    exact mem_sorted_okList (fun e => (check_forward_proxy e).1) (·.hostport) inp.forward hp h
  · intro hp h
    exact mem_sorted_okList (fun e => (check_socks e).1) (·.hostport) inp.socks4 hp h
  · intro hp h
    exact mem_sorted_okList (fun e => (check_socks e).1) (·.hostport) inp.socks5 hp h
  · intro hp h
    by_cases hc : (validate_forward inp.forward).https.isEmpty &&
        !(validate_forward inp.forward).http.isEmpty
    · have hhttps : (runOutputs inp).https = (validate_forward inp.forward).http := by
        simp only [runOutputs, hc]
        rfl
      rw [hhttps] at h
      obtain ⟨e, he, hg, hs⟩ :=
        mem_sorted_okList (fun e => (check_forward_proxy e).1) (·.hostport) inp.forward hp h
      have hnil : forwardHttpsOk inp.forward = [] := by
        have h1 : (validate_forward inp.forward).https.isEmpty = true := by
          cases h' : (validate_forward inp.forward).https.isEmpty
          · simp [h'] at hc
          · rfl
        have h2 : (pySortByMs (forwardHttpsOk inp.forward)).map (·.1) = [] :=
          List.isEmpty_iff.mp h1
        have h3 : pySortByMs (forwardHttpsOk inp.forward) = [] :=
          List.map_eq_nil_iff.mp h2
        exact pySortByMs_eq_nil h3
      exact ⟨e, he, hg, Or.inr ⟨hnil, hs⟩⟩
    · have hhttps : (runOutputs inp).https = (validate_forward inp.forward).https := by
        simp only [runOutputs, hc]
        rfl
      rw [hhttps] at h
      obtain ⟨e, he, hg, hs⟩ :=
        mem_sorted_okList (fun e => (check_forward_proxy e).2) (·.hostport) inp.forward hp h
      exact ⟨e, he, hg, Or.inl hs⟩

/-- Witness for C4 at a concrete run with one working socks4 candidate:
the published socks4 entry comes from a candidate with a successful SOCKS
probe outcome. -/
theorem working_list_membership_witness :
    ∃ e ∈ [(⟨"5.5.5.5:1080", some ⟨200, true⟩, 30, none, 0⟩ : SocksProbeEnv)],
      e.hostport = "5.5.5.5:1080" ∧ ((check_socks e).1).isSome = true :=
  (working_list_membership
      ⟨[], [⟨"5.5.5.5:1080", some ⟨200, true⟩, 30, none, 0⟩], []⟩).2.1
    "5.5.5.5:1080"
    (by simp [runOutputs, validate_socks, socksOk, check_socks, socksAttemptOk,
      pySortByMs_single])

/-- C6: the published `all` list is strictly sorted lexically (hence
deduplicated, not latency-ordered), and contains exactly the union of the
published http, https, socks4 and socks5 lists. -/
theorem all_list_union (inp : RunInput) :
    (runOutputs inp).all.Pairwise (· < ·)
  ∧ (∀ s : String, s ∈ (runOutputs inp).all ↔
      s ∈ (runOutputs inp).http ∨ s ∈ (runOutputs inp).https ∨
      s ∈ (runOutputs inp).socks4 ∨ s ∈ (runOutputs inp).socks5)
  ∧ (runOutputs inp).all.Nodup :=
  ⟨pySortedSet_sorted _, fun s => union_mem_spec _ _ _ _ s, pySortedSet_nodup _⟩

/-- C8 amended: error absorption and graceful empty result. Every run
completes (`Except.ok`) with working counts that equal the published list
lengths, whatever the probe results were (exceptions are the `none`
network results, absorbed inside the probes); a response with status at
least 400 is a failed attempt even though a response was received; an
HTTP attempt that did not return success yields no outcome. A protocol
whose probes all fail still yields a successful run with an empty
published list and a zero count for http, socks4 and socks5; for https,
this holds only when the http list is also empty — when https has zero
successful outcomes but http is non-empty, the run still succeeds without
error, but the fallback publishes the http list as https and reports
`counts.https = counts.http`, not an empty list with a zero count. -/
theorem error_absorption :
    (∀ inp : RunInput, mainRun inp = Except.ok (runOutputs inp)
      ∧ (runOutputs inp).counts.http = (runOutputs inp).http.length
      ∧ (runOutputs inp).counts.https = (runOutputs inp).https.length
      ∧ (runOutputs inp).counts.socks4 = (runOutputs inp).socks4.length
      ∧ (runOutputs inp).counts.socks5 = (runOutputs inp).socks5.length
      ∧ (runOutputs inp).counts.all = (runOutputs inp).all.length)
  ∧ (∀ r : HttpResponse, 400 ≤ r.status → check_via_proxy (some r) = some false)
  ∧ (∀ e : ForwardProbeEnv, check_via_proxy e.httpNet ≠ some true →
      (check_forward_proxy e).1 = none)
  ∧ (∀ inp : RunInput, (∀ e ∈ inp.socks4, (check_socks e).1 = none) →
      (runOutputs inp).socks4 = [] ∧ (runOutputs inp).counts.socks4 = 0)
  ∧ (∀ inp : RunInput, (∀ e ∈ inp.socks5, (check_socks e).1 = none) →
      (runOutputs inp).socks5 = [] ∧ (runOutputs inp).counts.socks5 = 0)
  ∧ (∀ inp : RunInput, (∀ e ∈ inp.forward, (check_forward_proxy e).1 = none) →
      (runOutputs inp).http = [] ∧ (runOutputs inp).counts.http = 0)
  ∧ (∀ inp : RunInput, (∀ e ∈ inp.forward, (check_forward_proxy e).2 = none) →
      ((runOutputs inp).http = [] →
        (runOutputs inp).https = [] ∧ (runOutputs inp).counts.https = 0)
      ∧ ((runOutputs inp).http ≠ [] →
        (runOutputs inp).https = (runOutputs inp).http
        ∧ (runOutputs inp).counts.https = (runOutputs inp).counts.http)) := by
  refine ⟨fun inp => ⟨rfl, rfl, rfl, rfl, rfl, rfl⟩, ?_, ?_, ?_, ?_, ?_, ?_⟩
  · intro r h
    simp [check_via_proxy, h]
  · intro e h
    exact (forwardAttempt_eq e.httpNet e.httpMs).2.mpr h
  · intro inp h
    have hnil : socksOk inp.socks4 = [] :=
      List.filterMap_eq_nil_iff.mpr (fun e he => by simp [h e he])
    have hv : validate_socks inp.socks4 = [] := by
      unfold validate_socks
      rw [hnil, pySortByMs_nil]
    constructor
    · show (validate_socks inp.socks4).map (·.1) = []
      rw [hv]
      rfl
    · show ((validate_socks inp.socks4).map (·.1)).length = 0
      rw [hv]
      rfl
  · intro inp h
    have hnil : socksOk inp.socks5 = [] :=
      List.filterMap_eq_nil_iff.mpr (fun e he => by simp [h e he])
    have hv : validate_socks inp.socks5 = [] := by
      unfold validate_socks
      rw [hnil, pySortByMs_nil]
    constructor
    · show (validate_socks inp.socks5).map (·.1) = []
      rw [hv]
      rfl
    · show ((validate_socks inp.socks5).map (·.1)).length = 0
      rw [hv]
      rfl
  · intro inp h
    have hnil : forwardHttpOk inp.forward = [] :=
      List.filterMap_eq_nil_iff.mpr (fun e he => by simp [h e he])
    have hv : (validate_forward inp.forward).http = [] := by
      show (pySortByMs (forwardHttpOk inp.forward)).map (·.1) = []
      rw [hnil, pySortByMs_nil]
      rfl
    constructor
    · exact hv
    · show (validate_forward inp.forward).http.length = 0
      rw [hv]
      rfl
  · intro inp h
    have hnil : forwardHttpsOk inp.forward = [] :=
      List.filterMap_eq_nil_iff.mpr (fun e he => by simp [h e he])
    have hvh : (validate_forward inp.forward).https = [] := by
      show (pySortByMs (forwardHttpsOk inp.forward)).map (·.1) = []
      rw [hnil, pySortByMs_nil]
      rfl
    constructor
    · intro hhttp
      have hvhttp : (validate_forward inp.forward).http = [] := hhttp
      have hrun : (runOutputs inp).https = (validate_forward inp.forward).https := by
        simp only [runOutputs]
        rw [hvh, hvhttp]
        simp
      constructor
      · exact hrun.trans hvh
      · show (runOutputs inp).https.length = 0
        rw [hrun, hvh]
        rfl
    · intro hne
      have hvhttp : (validate_forward inp.forward).http ≠ [] := hne
      have hie : (validate_forward inp.forward).http.isEmpty = false := by
        cases hq : (validate_forward inp.forward).http with
        | nil => exact absurd hq hvhttp
        | cons a as => rfl
      have hrun : (runOutputs inp).https = (validate_forward inp.forward).http := by
        simp only [runOutputs]
        rw [hvh, hie]
        simp
      constructor
      · exact hrun
      · show (runOutputs inp).https.length = (validate_forward inp.forward).http.length
        rw [hrun]

/-- C8 counterexample: a run with one forward candidate that passes the
HTTP probe in 12 ms and receives a 502 on the HTTPS probe finds zero
working https proxies (its https outcome list is empty), yet the
published https list is the non-empty `[7.7.7.7:3128]` and the reported
https working count is 1, not 0 — the fallback makes the per-protocol
empty-list/zero-count claim false for https. -/
theorem https_zero_success_cex :
    forwardHttpsOk [⟨"7.7.7.7:3128", some ⟨200, true⟩, 12, some ⟨502, true⟩, 20⟩] = []
  ∧ (runOutputs ⟨[⟨"7.7.7.7:3128", some ⟨200, true⟩, 12, some ⟨502, true⟩, 20⟩],
      [], []⟩).https = ["7.7.7.7:3128"]
  ∧ (runOutputs ⟨[⟨"7.7.7.7:3128", some ⟨200, true⟩, 12, some ⟨502, true⟩, 20⟩],
      [], []⟩).counts.https = 1 := by
  refine ⟨rfl, ?_, ?_⟩
  · simp [runOutputs, validate_forward, forwardHttpOk, forwardHttpsOk,
      check_forward_proxy, forwardAttempt, check_via_proxy,
      pySortByMs_nil, pySortByMs_single]
  · simp [runOutputs, validate_forward, forwardHttpOk, forwardHttpsOk,
      check_forward_proxy, forwardAttempt, check_via_proxy,
      pySortByMs_nil, pySortByMs_single]

/-- Witness for C8 at a concrete run: the forward candidate passes HTTP in
15 ms and its HTTPS attempt raises, so https has zero successful outcomes
while http is non-empty; the run completes with the https list equal to
the http list and equal counts, as the amended claim states. -/
theorem error_absorption_witness :
    (runOutputs ⟨[⟨"8.8.8.8:80", some ⟨200, true⟩, 15, none, 0⟩], [], []⟩).https =
      (runOutputs ⟨[⟨"8.8.8.8:80", some ⟨200, true⟩, 15, none, 0⟩], [], []⟩).http
  ∧ (runOutputs ⟨[⟨"8.8.8.8:80", some ⟨200, true⟩, 15, none, 0⟩], [], []⟩).counts.https =
      (runOutputs ⟨[⟨"8.8.8.8:80", some ⟨200, true⟩, 15, none, 0⟩], [], []⟩).counts.http :=
  (error_absorption.2.2.2.2.2.2 _ (by decide)).2
    (by simp [runOutputs, validate_forward, forwardHttpOk, check_forward_proxy,
      forwardAttempt, check_via_proxy, pySortByMs_single])

/-- C10 counterexample: the input line `1.2.3.4:07` has a two-digit port
text, so it matches `PROXY_RE`; `int` collapses the leading zero and the
emitted entry is `1.2.3.4:7`, whose port's decimal representation has one
digit and whose value 7 lies in [1, 9] — so the candidate parser can emit
single-digit-port entries, contrary to the claim. -/
theorem single_digit_port_cex :
    parse_candidates ("1.2.3.4:07".toList) = ["1.2.3.4:7".toList]
  ∧ natDigits 7 = ['7']
  ∧ (natDigits 7).length = 1
  ∧ digitsVal ['0', '7'] = 7 := by decide

/-- C10 amended: every entry emitted by the candidate parser is
`host:port` where the port's matched input text has 2 to 5 digits and the
port's value lies in [1, 65535]; endpoints whose port is written with a
single digit are never emitted, but port values 1 through 9 can still be
emitted when the input writes them with leading zeros (the emitted text
then carries the shortened decimal form of the value). -/
theorem parse_candidates_port_bounds (text : List Char) :
    ∀ e ∈ parse_candidates text, ∃ host pd : List Char,
      e = host ++ ':' :: natDigits (digitsVal pd)
      ∧ 2 ≤ pd.length ∧ pd.length ≤ 5
      ∧ (∀ c ∈ pd, c.isDigit = true)
      ∧ 1 ≤ digitsVal pd ∧ digitsVal pd ≤ 65535 := by
  intro e he
  unfold parse_candidates at he
  rw [List.mem_filterMap] at he
  obtain ⟨raw, hraw, hsome⟩ := he
  dsimp only at hsome
  split at hsome
  · exact absurd hsome (by simp)
  · split at hsome
    · exact absurd hsome (by simp)
    · split at hsome
      · exact absurd hsome (by simp)
      · rename_i host pd heq
        split at hsome
        · rename_i hbounds
          injection hsome with hsome'
          obtain ⟨h2, h5d, hdig⟩ := proxyReMatch_port heq
          exact ⟨host, pd, hsome'.symm, h2, h5d, hdig, hbounds.1, hbounds.2⟩
        · exact absurd hsome (by simp)

/-- Witness for C10 at a concrete input: the emitted entry for
`10.0.0.1:3128` decomposes as required, with a 4-digit port text and value
3128 in range. -/
theorem parse_candidates_port_bounds_witness :
    ("10.0.0.1:3128".toList) ∈ parse_candidates ("10.0.0.1:3128".toList)
  ∧ ∃ host pd : List Char,
      ("10.0.0.1:3128".toList) = host ++ ':' :: natDigits (digitsVal pd)
      ∧ 2 ≤ pd.length ∧ pd.length ≤ 5
      ∧ (∀ c ∈ pd, c.isDigit = true)
      ∧ 1 ≤ digitsVal pd ∧ digitsVal pd ≤ 65535 :=
  ⟨by decide, parse_candidates_port_bounds ("10.0.0.1:3128".toList) _ (by decide)⟩

end ProxyUpdate
